import Mathlib

/-!
# Verification of the fastjson JSONPath engine (`jsonpath.go`)

A shallow embedding of the JSONPath compiler and tree evaluator of the
repository `JimWen/fastjson` (file `jsonpath.go`), together with theorems
settling the frozen claims about it.

Conventions of the embedding:

* Go's `*Value` pointers are modelled as `Option Value`; a `none` is a nil
  pointer.  Operations that in Go return `(x, error)` are modelled with
  `Except String x`; operations that can moreover crash the process (index
  out of range, nil dereference, failed type assertion, slice bound panic)
  are modelled with `RunResult x`, whose `panic` constructor marks a Go
  runtime panic.  Error message texts are kept recognisable but are not
  bit-for-bit the `fmt.Errorf` output (formatting verbs are dropped).
* The `Value` tree itself lives in another file of the repository (it is not
  part of the source under verification); definitions marked
  `Modelled from the spec:` embed its documented contract.
* Go byte-indexed string slicing is modelled with character lists; every
  slice boundary taken by `jsonpath.go` sits at an ASCII character, where
  the two views agree.
-/

set_option maxRecDepth 8192

/-- Outcome of running a Go function that may return an error value or
crash.  `panic` marks a Go runtime panic (nil dereference, out-of-range
index, failed type assertion); `err` is an error returned as a value. -/
inductive RunResult (α : Type) where
  | ok : α → RunResult α
  | err : String → RunResult α
  | panic : String → RunResult α

def RunResult.isOk {α : Type} : RunResult α → Bool
  | .ok _ => true
  | _ => false

def RunResult.isErr {α : Type} : RunResult α → Bool
  | .err _ => true
  | _ => false

def RunResult.isPanic {α : Type} : RunResult α → Bool
  | .panic _ => true
  | _ => false

/-- The single-quote character `'` (written numerically to keep source
handling uniform). -/
def squote : Char := Char.ofNat 39

/-- The double-quote character `"`. -/
def dquote : Char := Char.ofNat 34

/-- The backslash character. -/
def bslash : Char := Char.ofNat 92

/-- Modelled from the spec: the external JSON value tree (`Value` of the
fastjson package, declared outside `jsonpath.go`), "a tagged union of
{object: mapping name→Value, keys unique; array: ordered sequence of Value;
string; number; boolean; null}".  A number carries its raw text (the Go
struct field `s`), as does a string. Array elements are Go `*Value`
pointers, hence `Option Value`: the evaluator itself builds arrays holding
nil pointers when broadcasting a missing key. -/
inductive Value where
  | object : List (String × Value) → Value
  | arr : List (Option Value) → Value
  | str : String → Value
  | num : String → Value
  | boolTrue : Value
  | boolFalse : Value
  | null : Value

/-- Modelled from the spec: the scalar text of a value (Go field `v.s`),
set for strings and numbers and empty (Go zero value) otherwise. -/
def Value.sfield : Value → String
  | .str s => s
  | .num s => s
  | _ => ""

def Value.isArrV : Value → Bool
  | .arr _ => true
  | _ => false

def Value.isObjV : Value → Bool
  | .object _ => true
  | _ => false

/-- First field with the given name, if any (object keys are unique per
the spec, so first match is the match). -/
def findField : List (String × Value) → String → Option Value
  | [], _ => none
  | (k, v) :: rest, key => if k = key then some v else findField rest key

/-- Modelled from the spec: `Value.Exists(key)`, "field lookup by name
with a presence test". -/
def existsKey (fields : List (String × Value)) (key : String) : Bool :=
  (findField fields key).isSome

/-- Modelled from the spec: `(*Value).Get(key)` — field lookup by name on a
possibly-nil pointer; a nil receiver, a missing key or a non-object
receiver all yield nil ("a missing key on an element yields null for that
slot"). -/
def getP : Option Value → String → Option Value
  | none, _ => none
  | some (.object fields), key => findField fields key
  | some _, _ => none

/-- `strings.Trim(s, string(c))`: remove all leading and trailing
occurrences of the character `c`. -/
def goTrimChar (s : String) (c : Char) : String :=
  ⟨((s.data.dropWhile (fun x => x = c)).reverse.dropWhile (fun x => x = c)).reverse⟩

def digitsVal : List Char → Nat
  | [] => 0
  | c :: rest => digitsVal rest + c.toNat.sub 48 * 10 ^ rest.length

/-- `strconv.Atoi`: an optional sign followed by at least one decimal
digit (integer overflow is outside the modelled fragment). -/
def goAtoi (s : String) : Option Int :=
  let core : List Char → Option Int := fun ds =>
    if ds ≠ [] ∧ ds.all Char.isDigit then some (Int.ofNat (digitsVal ds)) else none
  match s.data with
  | '+' :: ds => core ds
  | '-' :: ds => (core ds).map Int.neg
  | ds => core ds

/-- `strings.Contains(s, string(c))`, via the character list. -/
def strContainsChar (s : String) (c : Char) : Bool :=
  s.data.any (fun x => x = c)

def isPrefixList : List Char → List Char → Bool
  | [], _ => true
  | _ :: _, [] => false
  | p :: ps, c :: cs => p = c ∧ isPrefixList ps cs

/-- `strings.HasPrefix`. -/
def strStartsWith (s p : String) : Bool := isPrefixList p.data s.data

/-- `strings.HasSuffix`. -/
def strEndsWith (s p : String) : Bool := isPrefixList p.data.reverse s.data.reverse

/-- Drop the first `n` characters (Go slicing `s[n:]`, at ASCII
boundaries). -/
def strDrop (s : String) (n : Nat) : String := ⟨s.data.drop n⟩

/-- Drop the last `n` characters (Go slicing `s[:len(s)-n]`, at ASCII
boundaries). -/
def strDropRight (s : String) (n : Nat) : String := ⟨(s.data.reverse.drop n).reverse⟩

/-- `strings.Split` with a single-character separator, on character
lists; splitting the empty list yields one empty piece, as in Go. -/
def splitListChar (c : Char) : List Char → List (List Char)
  | [] => [[]]
  | x :: rest =>
    let r := splitListChar c rest
    if x = c then [] :: r
    else
      match r with
      | h :: t => (x :: h) :: t
      | [] => [[x]]

def strSplitOnChar (s : String) (c : Char) : List String :=
  (splitListChar c s.data).map (fun l => ⟨l⟩)

/-- One iteration of the tokenizer loop of `tokenize` (`jsonpath.go`,
lines 241-287), for every index after the first.  State: the emitted
tokens and the accumulating `token`. -/
def tokLoop : List String × String → Char → List String × String
  | (tokens, token), x =>
    let token := token.push x
    if token = "." then (tokens, token)
    else if token = ".." then
      (if tokens.getLast? ≠ some "*" then tokens ++ ["*"] else tokens, ".")
    else if strContainsChar token '[' then
      if x = ']' ∧ ¬ strEndsWith token ((String.singleton bslash).push ']') then
        (tokens ++ [if strStartsWith token "." then strDrop token 1 else token], "")
      else (tokens, token)
    else
      if x = '.' then
        (tokens ++ [let t := strDropRight token 1
                    if strStartsWith t "." then strDrop t 1 else t], ".")
      else (tokens, token)

/-- The trailing-token flush of `tokenize` (`jsonpath.go`, lines 288-303). -/
def tokFlush (tokens : List String) (token : String) : List String :=
  if token.length > 0 then
    let token := if strStartsWith token "." then strDrop token 1 else token
    if token ≠ "*" then tokens ++ [token]
    else if tokens.getLast? ≠ some "*" then tokens ++ [token]
    else tokens
  else tokens

/-- `tokenize` (`jsonpath.go`, lines 234-307): split a path string into
step tokens.  The first character must be `$` or `@`; `..` emits a `*`
token, coalescing adjacent `*`s; inside `[...]` dots are literal and an
escaped `\]` does not close the bracket. -/
def tokenize (query : String) : Except String (List String) :=
  match query.data with
  | [] => Except.ok []
  | c :: rest =>
    if c = '$' ∨ c = '@' then
      let st := rest.foldl tokLoop ([String.singleton c], "")
      Except.ok (tokFlush st.1 st.2)
    else Except.error "should start with $"

/-- The kind-specific payload of a step (Go: the untyped `args
interface{}` field; `none` is a nil interface). -/
inductive Args where
  | nil : Args
  | keys : List String → Args
  | idxs : List Int → Args
  | rng : Option Int → Option Int → Args
  | filter : String → Args

/-- One compiled path step (`jsonpath.go`, lines 72-76). -/
structure Step where
  op : String
  key : String
  args : Args

/-- A compiled path (`jsonpath.go`, lines 67-70). -/
structure Compiled where
  path : String
  steps : List Step

/-- The always-false invalid-character test of `parse_bracket_token`
(`jsonpath.go`, line 398).  The Go condition reads
`(v < '0' || v > '9') && (v < 'a' || v > 'z') && (v < 'A' && v > 'Z') && ...`;
the third conjunct uses `&&` where the surrounding clauses use `||`, and
`v < 'A' && v > 'Z'` is unsatisfiable. -/
def bracketInvalidChar (v : Char) : Bool :=
  (v.toNat < '0'.toNat ∨ v.toNat > '9'.toNat) ∧
  (v.toNat < 'a'.toNat ∨ v.toNat > 'z'.toNat) ∧
  (v.toNat < 'A'.toNat ∧ v.toNat > 'Z'.toNat) ∧
  v ≠ ',' ∧ v ≠ '@' ∧ v ≠ '$' ∧ v ≠ '.'

/-- The character classes driving `parse_bracket_token`'s switch: quote,
comparison-operator and logic-operator characters. -/
def isCmpOpChar (v : Char) : Bool :=
  v = '=' ∨ v = '!' ∨ v = '<' ∨ v = '>' ∨ v = '~'

def isLogicChar (v : Char) : Bool :=
  v = '&' ∨ v = '|'

/-- `parse_bracket_token` (`jsonpath.go`, lines 377-442): classify a
bracket interior (no `?`, no `:`, not `*`) as filter / key-list /
index-list.  A character is in the switch's default case iff it is not a
quote, comparison or logic character; the default case's invalid-character
error fires iff `bracketInvalidChar` holds (which it never does, see C5). -/
def parse_bracket_token (token : String) : Except String (String × Args) :=
  if token.data.any (fun v =>
      ¬ (v = squote ∨ isCmpOpChar v ∨ isLogicChar v) ∧ bracketInvalidChar v) then
    Except.error "invalid token"
  else
    let hasKey := strContainsChar token squote
    let hasOp := token.data.any isCmpOpChar
    let hasLogic := token.data.any isLogicChar
    if hasLogic ∨ hasOp then
      Except.ok ("filter", Args.filter (goTrimChar token ' '))
    else if hasKey then
      Except.ok ("key", Args.keys ((strSplitOnChar token ',').map
        (fun str => goTrimChar (goTrimChar str ' ') squote)))
    else
      let parts := (strSplitOnChar token ',').map (fun x => goAtoi (goTrimChar x ' '))
      if parts.all Option.isSome then
        Except.ok ("idx", Args.idxs (parts.map (fun o => o.getD 0)))
      else Except.error "strconv.Atoi: invalid syntax"

/-- `parse_token` (`jsonpath.go`, lines 312-374): classify one token into
`(op, key, args)`.  A bracket interior containing `?` is a filter step; if
it is not of the form `?( ... )` the args stay the nil interface (no error
is raised).  A `:` makes a range; the Go code overwrites the `from`-side
parse error with the `to`-side result, so only the `to` side can fail. -/
def parse_token (token : String) : Except String (String × String × Args) :=
  if token = "$" then Except.ok ("root", "$", Args.nil)
  else if token = "*" then Except.ok ("scan", "*", Args.nil)
  else if ¬ strContainsChar token '[' then Except.ok ("key", token, Args.nil)
  else
    let key : String := ⟨token.data.takeWhile (fun c => c ≠ '[')⟩
    let tail : String := ⟨token.data.dropWhile (fun c => c ≠ '[')⟩
    if tail.length < 3 then Except.error "len(tail) should be at least 3"
    else
      let tail := strDropRight (strDrop tail 1) 1
      if strContainsChar tail '?' then
        if strStartsWith tail "?(" ∧ strEndsWith tail ")" then
          Except.ok ("filter", key, Args.filter (goTrimChar (strDropRight (strDrop tail 2) 1) ' '))
        else Except.ok ("filter", key, Args.nil)
      else if strContainsChar tail ':' then
        let tails := strSplitOnChar tail ':' 
        if tails.length ≠ 2 then Except.error "only support one range(from, to)"
        else
          let t0 := goTrimChar (tails.getD 0 "") ' '
          let t1 := goTrimChar (tails.getD 1 "") ' '
          if (goAtoi t1).isNone ∧ t1 ≠ "" then Except.error "strconv.Atoi: invalid syntax"
          else Except.ok ("range", key, Args.rng (goAtoi t0) (goAtoi t1))
      else if tail = "*" then Except.ok ("range", key, Args.rng none none)
      else (parse_bracket_token tail).map (fun r => (r.1, key, r.2))

/-- The step-compiling loop of `Compile`: parse each token in order,
stopping at the first parse error. -/
def compileSteps : List String → Except String (List Step)
  | [] => Except.ok []
  | t :: rest =>
    match parse_token t with
    | .error e => Except.error e
    | .ok (op, key, args) =>
      match compileSteps rest with
      | .error e => Except.error e
      | .ok steps => Except.ok (⟨op, key, args⟩ :: steps)

/-- `Compile` (`jsonpath.go`, lines 86-107).  On the empty path the token
list is empty and the Go code's `tokens[0]` crashes with an index
out-of-range panic. -/
def Compile (jpath : String) : RunResult Compiled :=
  match tokenize jpath with
  | .error e => .err e
  | .ok tokens =>
    match tokens with
    | [] => .panic "index out of range"
    | t0 :: rest =>
      if t0 ≠ "@" ∧ t0 ≠ "$" then .err "$ or @ should in front of path"
      else
        match compileSteps rest with
        | .error e => .err e
        | .ok steps => .ok ⟨jpath, steps⟩

/-- `get_key` (`jsonpath.go`, lines 488-520): resolve a key against a
value.  A nil pointer fails with `ErrGetFromNullObj`; an empty key is a
no-op; an object fails when the key is absent; an array broadcasts the
lookup over its elements, a missing key yielding a nil slot; anything else
fails with a type error. -/
def get_key (obj : Option Value) (key : String) : Except String (Option Value) :=
  match obj with
  | none => Except.error "get attribute from null object"
  | some v =>
    if key.length = 0 then Except.ok (some v)
    else
      match v with
      | .object fields =>
        if ¬ existsKey fields key then Except.error "key error: not found in object"
        else Except.ok (findField fields key)
      | .arr elems => Except.ok (some (.arr (elems.map (fun e => getP e key))))
      | _ => Except.error "fail to exec get_key, object is not map"

/-- `get_idx` (`jsonpath.go`, lines 522-544): index an array, negative
indices counting from the end.  Reading a field of a nil pointer is a Go
nil-dereference panic. -/
def get_idx (obj : Option Value) (idx : Int) : RunResult (Option Value) :=
  match obj with
  | none => .panic "nil pointer dereference"
  | some (.arr a) =>
    let length : Int := a.length
    if idx ≥ 0 then
      if idx ≥ length then .err "index out of range"
      else .ok (a.getD idx.toNat none)
    else
      let i := length + idx
      if i < 0 then .err "index out of range"
      else .ok (a.getD i.toNat none)
  | some _ => .err "fail to exec get_idx, object is not Slice"

/-- `get_range` (`jsonpath.go`, lines 546-589): slice an array.  Bounds
default to `0` and `length-1`; a negative bound counts from the end; the
upper bound is inclusive (Go adds one).  The validation `_frm >= length`
also fires on an empty array with default bounds.  When the checks pass
but `from > to`, Go's `obj.a[_frm:_to]` panics. -/
def get_range (obj : Option Value) (frm tov : Option Int) : RunResult (Option Value) :=
  match obj with
  | none => .panic "nil pointer dereference"
  | some (.arr a) =>
    let length : Int := a.length
    let fv := frm.getD 0
    let tv := tov.getD (length - 1)
    let f := if fv < 0 then length + fv else fv
    let t := if tv < 0 then length + tv + 1 else tv + 1
    if f < 0 ∨ f ≥ length then .err "index [from] out of range"
    else if t < 0 ∨ t > length then .err "index [to] out of range"
    else if f > t then .panic "slice bounds out of range"
    else .ok (some (.arr ((a.drop f.toNat).take (t - f).toNat)))
  | some _ => .err "fail to exec get_range, object is not Slice"

/-- `parse_filter` (`jsonpath.go`, lines 681-738): split a predicate into
(left, op, right) on unquoted spaces.  Faithful detail: the closing-quote
branch stores `tmp` but never resets `str_embrace`, so after the first
quote all later spaces are treated as quoted. -/
structure FilterScan where
  lp : String
  op : String
  rp : String
  tmp : String
  stage : Nat
  embrace : Bool
  failed : Bool

def filterAssign (st : FilterScan) : FilterScan :=
  match st.stage with
  | 0 => { st with lp := st.tmp, tmp := "" }
  | 1 => { st with op := st.tmp, tmp := "" }
  | 2 => { st with rp := st.tmp, tmp := "" }
  | _ => { st with tmp := "" }

def filterStepChar (st : FilterScan) (c : Char) : FilterScan :=
  if st.failed then st
  else if c = squote then
    if st.embrace = false then { st with embrace := true }
    else filterAssign st
  else if c = ' ' then
    if st.embrace = true then { st with tmp := st.tmp.push c }
    else
      let st := filterAssign st
      let st := { st with stage := st.stage + 1 }
      if st.stage > 2 then { st with failed := true } else st
  else { st with tmp := st.tmp.push c }

def parse_filter (filter : String) : Except String (String × String × String) :=
  let st := filter.data.foldl filterStepChar ⟨"", "", "", "", 0, false, false⟩
  if st.failed then Except.error "invalid char"
  else if st.tmp ≠ "" then
    match st.stage with
    | 0 => Except.ok (st.tmp, "exists", st.rp)
    | 1 => Except.ok (st.lp, st.tmp, st.rp)
    | 2 => Except.ok (st.lp, st.op, st.tmp)
    | _ => Except.ok (st.lp, st.op, st.rp)
  else Except.ok (st.lp, st.op, st.rp)

/-- The step loop of `filter_get_from_explicit_path` (`jsonpath.go`,
lines 457-483): only key and single-index steps are supported; any other
step kind — and any token whose parse failed, since the Go code ignores
the parse error and switches on the zero-valued `op` — falls to the
default error. -/
def filterPathSteps : Option Value → List String → RunResult (Option Value)
  | xobj, [] => .ok xobj
  | xobj, s :: rest =>
    match parse_token s with
    | .ok ("key", key, _) =>
      match get_key xobj key with
      | .error e => .err e
      | .ok x2 => filterPathSteps x2 rest
    | .ok ("idx", key, .idxs is) =>
      if is.length ≠ 1 then .err "dont support multiple index in filter"
      else
        match get_key xobj key with
        | .error e => .err e
        | .ok x2 =>
          match get_idx x2 (is.getD 0 0) with
          | .panic p => .panic p
          | .err e => .err e
          | .ok x3 => filterPathSteps x3 rest
    | .ok ("idx", _, _) => .panic "interface conversion"
    | _ => .err "expression dont support in filter"

/-- `filter_get_from_explicit_path` (`jsonpath.go`, lines 444-486):
resolve a filter-operand mini-path (`@...` / `$...`). -/
def filter_get_from_explicit_path (obj : Option Value) (path : String) : RunResult (Option Value) :=
  match tokenize path with
  | .error e => .err e
  | .ok [] => .panic "index out of range"
  | .ok (t0 :: rest) =>
    if t0 ≠ "@" ∧ t0 ≠ "$" then .err "$ or @ should in front of filter path"
    else filterPathSteps obj rest

/-- `get_lp_v` (`jsonpath.go`, lines 795-805): a left operand starting
with `@.` resolves against the candidate, `$.` against the root, anything
else is a string literal value. -/
def get_lp_v (obj root : Option Value) (lp : String) : RunResult (Option Value) :=
  if strStartsWith lp "@." then filter_get_from_explicit_path obj lp
  else if strStartsWith lp "$." then filter_get_from_explicit_path root lp
  else .ok (some (.str lp))

/-- `regFilterCompile` (`jsonpath.go`, lines 591-602): check the
`/pattern/` shape and strip the delimiters.  The external
`regexp.Compile` on the inner pattern is modelled as always succeeding
(no claim depends on regex syntax errors). -/
def regFilterCompile (rule : String) : Except String String :=
  let runes := rule.data
  if runes.length ≤ 2 then Except.error "empty rule"
  else if runes.head? ≠ some '/' ∨ runes.getLast? ≠ some '/' then
    Except.error "invalid syntax. should be in /pattern/ form"
  else Except.ok ⟨(runes.drop 1).dropLast⟩

/-- Modelled from the spec: external regular-expression matching
(`regexp.MatchString`).  Modelled as an unspecified total function
(constantly false); no claim depends on match results. -/
def regexpMatchString (_pat _s : String) : Bool :=
  false

/-- `eval_reg_filter` (`jsonpath.go`, lines 779-793): the left operand
must resolve to a string, which is matched against the pattern. -/
def eval_reg_filter (obj root : Option Value) (lp pat : String) : RunResult Bool :=
  match get_lp_v obj root lp with
  | .panic p => .panic p
  | .err e => .err e
  | .ok lpv =>
    match lpv with
    | some (.str s) => .ok (regexpMatchString pat s)
    | some _ => .err "only string can match with regular expression"
    | none => .panic "nil pointer dereference"

/-- Lower-casing of ASCII letters (for ParseFloat's case-insensitive
special values). -/
def lcase (c : Char) : Char :=
  if c.toNat ≥ 65 ∧ c.toNat ≤ 90 then Char.ofNat (c.toNat + 32) else c

/-- Hexadecimal-digit test (`0-9`, `a-f`, `A-F`). -/
def isHexDigit (c : Char) : Bool :=
  c.isDigit ∨ (97 ≤ (lcase c).toNat ∧ (lcase c).toNat ≤ 102)

def hexDigitVal (c : Char) : Nat :=
  if c.isDigit then c.toNat - 48 else (lcase c).toNat - 87

def hexDigitsVal : List Char → Nat
  | [] => 0
  | c :: rest => hexDigitsVal rest + hexDigitVal c * 16 ^ rest.length

def octDigitsVal : List Char → Nat
  | [] => 0
  | c :: rest => octDigitsVal rest + c.toNat.sub 48 * 8 ^ rest.length

/-- `strconv`'s `underscoreOK` loop, which is also the digit-separator
placement rule of Go's literal scanner: an underscore may appear only
between digits or right after a base prefix.  The state character `saw`
is `^` at the start, `0` after a digit or base prefix, `_` after an
underscore, `!` after anything else. -/
def underscoreOKLoop (hex : Bool) : List Char → Char → Bool
  | [], saw => saw ≠ '_'
  | c :: rest, saw =>
    if c.isDigit ∨ (hex ∧ 97 ≤ (lcase c).toNat ∧ (lcase c).toNat ≤ 102) then
      underscoreOKLoop hex rest '0'
    else if c = '_' then
      if saw ≠ '0' then false else underscoreOKLoop hex rest '_'
    else if saw = '_' then false
    else underscoreOKLoop hex rest '!'

def underscoreOK (cs : List Char) : Bool :=
  let cs1 := match cs with
    | c :: rest => if c = '-' ∨ c = '+' then rest else c :: rest
    | [] => []
  match cs1 with
  | c0 :: c1 :: rest =>
    if c0 = '0' ∧ (lcase c1 = 'b' ∨ lcase c1 = 'o' ∨ lcase c1 = 'x') then
      underscoreOKLoop (lcase c1 = 'x') rest '0'
    else underscoreOKLoop false cs1 '^'
  | _ => underscoreOKLoop false cs1 '^'

/-- The mantissa loop shared by `strconv.ParseFloat` and the literal
value parser: collect integer and fraction digits (hex or decimal),
skipping underscores (their placement is validated separately by
`underscoreOK`); a second dot or any other character stops the scan.
Returns (integer digits, fraction digits, rest). -/
def scanMantAux (hex : Bool) : List Char → Bool → List Char → List Char →
    List Char × List Char × List Char
  | [], _, ipRev, fpRev => (ipRev.reverse, fpRev.reverse, [])
  | c :: rest, sawdot, ipRev, fpRev =>
    if c = '_' then scanMantAux hex rest sawdot ipRev fpRev
    else if c = '.' then
      if sawdot then (ipRev.reverse, fpRev.reverse, c :: rest)
      else scanMantAux hex rest true ipRev fpRev
    else if (if hex then isHexDigit c else c.isDigit) then
      if sawdot then scanMantAux hex rest sawdot ipRev (c :: fpRev)
      else scanMantAux hex rest sawdot (c :: ipRev) fpRev
    else (ipRev.reverse, fpRev.reverse, c :: rest)

/-- An exponent tail (the `e`/`p` character already consumed): optional
sign, then a first decimal digit, then digits or underscores to the end
of the text; its value. -/
def scanExpVal : List Char → Option Int
  | [] => none
  | c :: rest =>
    let p : Bool × List Char :=
      if c = '-' then (true, rest) else if c = '+' then (false, rest) else (false, c :: rest)
    match p.2 with
    | [] => none
    | d :: _ =>
      if d.isDigit ∧ p.2.all (fun x => x.isDigit ∨ x = '_') then
        let v : Int := Int.ofNat (digitsVal (p.2.filter (fun x => x ≠ '_')))
        some (if p.1 then -v else v)
      else none

/-- The numeric fragment of `strconv.ParseFloat` after the optional sign
(specials excluded), with the exact value as `(m, e)` denoting
`m * 10^e`: a decimal mantissa with optional fraction and `e`-exponent,
or a hexadecimal `0x` mantissa with a mandatory `p`-exponent (the exact
hex value `H * 2^E` equals `(H * 5^-E) * 10^E` when `E < 0`); with
underscores only where `underscoreOK` allows them. -/
def parseFloatNum (cs : List Char) : Option (Int × Int) :=
  let p : Bool × List Char :=
    match cs with
    | c0 :: c1 :: rest => if c0 = '0' ∧ lcase c1 = 'x' then (true, rest) else (false, cs)
    | _ => (false, cs)
  let m := scanMantAux p.1 p.2 false [] []
  if m.1 = [] ∧ m.2.1 = [] then none
  else
    let eOpt : Option Int :=
      match m.2.2 with
      | [] => if p.1 then none else some 0
      | c :: r2 => if (if p.1 then lcase c = 'p' else lcase c = 'e') then scanExpVal r2 else none
    match eOpt with
    | none => none
    | some e =>
      if cs.any (fun x => x = '_') ∧ ¬ underscoreOK cs then none
      else if p.1 then
        let hm : Int := Int.ofNat (hexDigitsVal m.1 * 16 ^ m.2.1.length + hexDigitsVal m.2.1)
        let e2 : Int := e - 4 * Int.ofNat m.2.1.length
        some (if e2 ≥ 0 then (hm * Int.ofNat (2 ^ e2.toNat), (0 : Int))
          else (hm * Int.ofNat (5 ^ (-e2).toNat), e2))
      else
        some (Int.ofNat (digitsVal m.1 * 10 ^ m.2.1.length + digitsVal m.2.1),
          e - Int.ofNat m.2.1.length)

/-- The double-overflow threshold of `strconv.ParseFloat`: a well-formed
text whose value has magnitude at least `2^1024 - 2^970` rounds (to
nearest, ties to even) to infinity, and ParseFloat reports `ErrRange`.
Underflow returns no error in Go and needs no special handling. -/
def floatOverflowBound : Int := Int.ofNat (2 ^ 1024 - 2 ^ 970)

def decOverflow (q : Int × Int) : Bool :=
  if q.2 ≥ 0 then floatOverflowBound ≤ (q.1.natAbs : Int) * Int.ofNat (10 ^ q.2.toNat)
  else floatOverflowBound * Int.ofNat (10 ^ (-q.2).toNat) ≤ (q.1.natAbs : Int)

/-- Modelled from the spec: success of `strconv.ParseFloat` — "string
text that parses as a floating-point literal".  Accepts the
case-insensitive specials (`inf`/`infinity`, optionally signed, and
unsigned `nan`), or a decimal or hexadecimal (`0x…p…`) floating text
with Go's digit-separator placement rules, whose value stays below the
double-overflow threshold (overflow makes ParseFloat return `ErrRange`,
so such texts are not numeric for `isNumber`). -/
def parseFloatOk (s : String) : Bool :=
  match s.data with
  | [] => false
  | c :: rest =>
    let signed := c = '+' ∨ c = '-'
    let cs := if signed then rest else c :: rest
    let low : List Char := cs.map lcase
    if low = "inf".data ∨ low = "infinity".data then true
    else if ¬ signed ∧ low = "nan".data then true
    else
      match parseFloatNum cs with
      | some q => ¬ decOverflow q
      | none => false

/-- `isNumber` (`jsonpath.go`, lines 829-842): a number value is numeric
outright; a string value is numeric iff `strconv.ParseFloat` accepts its
text; everything else is not numeric. -/
def isNumberV : Value → Bool
  | .num _ => true
  | .str s => parseFloatOk s
  | _ => false

/-- A decimal Go literal (integer or float) with Go digit separators:
mantissa digits with optional fraction, optional `e`-exponent; its exact
value as `(m, e)` denoting `m * 10^e`.  Decimal literals have
power-of-ten denominators, so this captures the exact constant
arithmetic of `go/constant`. -/
def goLitDec (cs : List Char) : Option (Int × Int) :=
  let m := scanMantAux false cs false [] []
  if m.1 = [] ∧ m.2.1 = [] then none
  else
    let eOpt : Option Int :=
      match m.2.2 with
      | [] => some 0
      | c :: r2 => if lcase c = 'e' then scanExpVal r2 else none
    eOpt.map (fun e =>
      (Int.ofNat (digitsVal m.1 * 10 ^ m.2.1.length + digitsVal m.2.1),
        e - Int.ofNat m.2.1.length))

/-- The body of `goLit` after sign stripping and separator-placement
validation: hexadecimal floats (mandatory `p`-exponent), legacy
leading-zero octal integers (a digit `8`/`9` there is an invalid octal
literal, an evaluation error), decimal integers and floats.  `0b`/`0o`
and hexadecimal integer literals never pass `isNumber`, so `cmp_any`
never feeds them to the evaluator; they are conservatively `none`. -/
def goLitBody (cs : List Char) : Option (Int × Int) :=
  match cs with
  | '0' :: c1 :: r2 =>
    if lcase c1 = 'x' then
      let m := scanMantAux true r2 false [] []
      if m.1 = [] ∧ m.2.1 = [] then none
      else
        match m.2.2 with
        | c :: r3 =>
          if lcase c = 'p' then
            (scanExpVal r3).map (fun e =>
              let hm : Int := Int.ofNat (hexDigitsVal m.1 * 16 ^ m.2.1.length + hexDigitsVal m.2.1)
              let e2 : Int := e - 4 * Int.ofNat m.2.1.length
              if e2 ≥ 0 then (hm * Int.ofNat (2 ^ e2.toNat), (0 : Int))
              else (hm * Int.ofNat (5 ^ (-e2).toNat), e2))
          else none
        | [] => none
    else if lcase c1 = 'b' ∨ lcase c1 = 'o' then none
    else if cs.any (fun x => x = '.' ∨ lcase x = 'e') then goLitDec cs
    else
      let ds := cs.filter (fun x => x ≠ '_')
      if ds.all (fun x => x.toNat ≥ 48 ∧ x.toNat ≤ 55) then
        some (Int.ofNat (octDigitsVal ds), 0)
      else none
  | _ => goLitDec cs

/-- The exact constant value of a Go numeric literal with an optional
expression-level sign, as evaluated by `go/types`
(arbitrary-precision constant arithmetic, `go/constant`), as a pair
`(m, e)` denoting `m * 10^e`.  A text with ill-placed digit separators
is not a literal (scanner error), hence an evaluation error. -/
def goLit (s : String) : Option (Int × Int) :=
  match s.data with
  | [] => none
  | c :: rest =>
    let neg := c = '-'
    let cs := if c = '-' ∨ c = '+' then rest else c :: rest
    if cs.any (fun x => x = '_') ∧ ¬ underscoreOK cs then none
    else (goLitBody cs).map (fun q => if neg then (-q.1, q.2) else q)


/-- An operand token of the comparison expressions `cmp_any` builds: a
double-quoted string literal or a numeric literal. -/
inductive GoOperand where
  | strLit : List Char → GoOperand
  | numLit : List Char → GoOperand

/-- Scan an interpreted string literal after its opening quote, up to
the closing quote.  Go's scanner fails on a raw newline inside the
literal ("string literal not terminated"), and on a NUL character or a
byte-order mark anywhere in the source, all of which end in an
evaluation error; escape sequences are outside the modelled fragment
(the theorems exclude backslashes).  An unterminated literal is a parse
error. -/
def scanStrLit : List Char → Option (List Char × List Char)
  | [] => none
  | c :: rest =>
    if c = dquote then some ([], rest)
    else if c = Char.ofNat 10 ∨ c = Char.ofNat 0 ∨ c = Char.ofNat 65279 then none
    else (scanStrLit rest).map (fun q => (c :: q.1, q.2))

def spanNonSpace : List Char → List Char × List Char
  | [] => ([], [])
  | c :: rest =>
    if c = ' ' then ([], c :: rest)
    else
      let q := spanNonSpace rest
      (c :: q.1, q.2)

def scanOperand : List Char → Option (GoOperand × List Char)
  | [] => none
  | c :: rest =>
    if c = dquote then (scanStrLit rest).map (fun q => (GoOperand.strLit q.1, q.2))
    else
      let q := spanNonSpace (c :: rest)
      if q.1 = [] then none else some (GoOperand.numLit q.1, q.2)

/-- The comparison operators `cmp_any` accepts (`jsonpath.go`, line 846). -/
def cmpOps : List String := ["<", "<=", "==", "!=", ">=", ">"]

/-- Lexicographic (byte-wise) order on strings, as Go compares them.  On
character lists codepoint order coincides with UTF-8 byte order. -/
def listLt : List Char → List Char → Bool
  | [], [] => false
  | [], _ :: _ => true
  | _ :: _, [] => false
  | a :: as, b :: bs => if a < b then true else if b < a then false else listLt as bs

def strCmpOp (op : String) (a b : List Char) : Except String Bool :=
  if op = "<" then Except.ok (listLt a b)
  else if op = "<=" then Except.ok (¬ listLt b a)
  else if op = "==" then Except.ok (a = b)
  else if op = "!=" then Except.ok (a ≠ b)
  else if op = ">=" then Except.ok (¬ listLt a b)
  else if op = ">" then Except.ok (listLt b a)
  else Except.error "types.Eval: unsupported operator"

/-- Scale two exact decimal constants `m * 10^e` to a common exponent:
the results are integer mantissas whose comparison is the comparison of
the represented rationals. -/
def decScale (a b : Int × Int) : Int × Int :=
  if a.2 ≥ b.2 then (a.1 * Int.ofNat (10 ^ (a.2 - b.2).toNat), b.1)
  else (a.1, b.1 * Int.ofNat (10 ^ (b.2 - a.2).toNat))

def numCmpOp (op : String) (a b : Int × Int) : Except String Bool :=
  let sc := decScale a b
  if op = "<" then Except.ok (sc.1 < sc.2)
  else if op = "<=" then Except.ok (sc.1 ≤ sc.2)
  else if op = "==" then Except.ok (sc.1 = sc.2)
  else if op = "!=" then Except.ok (sc.1 ≠ sc.2)
  else if op = ">=" then Except.ok (sc.2 ≤ sc.1)
  else if op = ">" then Except.ok (sc.2 < sc.1)
  else Except.error "types.Eval: unsupported operator"

def evalCmpOperands (o1 o2 : GoOperand) (op : String) : Except String Bool :=
  match o1, o2 with
  | .strLit a, .strLit b => strCmpOp op a b
  | .numLit a, .numLit b =>
    match goLit ⟨a⟩, goLit ⟨b⟩ with
    | some q1, some q2 => numCmpOp op q1 q2
    | _, _ => Except.error "types.Eval: parse error"
  | _, _ => Except.error "types.Eval: mismatched types"

/-- Model of the external `go/types` constant evaluation (`types.Eval`)
applied to the expression strings `cmp_any` constructs, combined with
`cmp_any`'s own checks on the evaluation result: the expression must be
exactly `operand op operand`; two string literals compare
lexicographically byte-wise, two numeric literals compare exactly as
arbitrary-precision constants (`go/constant`); anything else — including
a shape broken by quote characters inside an operand — is an evaluation
error. -/
def goEvalCmp (exp : List Char) : Except String Bool :=
  match scanOperand exp with
  | none => Except.error "types.Eval: parse error"
  | some (o1, r1) =>
    match r1 with
    | ' ' :: r2 =>
      let q := spanNonSpace r2
      match q.2 with
      | ' ' :: r3 =>
        match scanOperand r3 with
        | some (o2, []) => evalCmpOperands o1 o2 ⟨q.1⟩
        | _ => Except.error "types.Eval: parse error"
      | _ => Except.error "types.Eval: parse error"
    | _ => Except.error "types.Eval: parse error"

/-- The expression text `fmt.Sprintf("%v %s %v", obj1.s, op, obj2.s)`
built by `cmp_any` for two numeric operands, as a character list. -/
def numExp (a : List Char) (op : String) (b : List Char) : List Char :=
  a ++ ' ' :: (op.data ++ ' ' :: b)

/-- The expression text `fmt.Sprintf("\x22%v\x22 %s \x22%v\x22", obj1.s, op, obj2.s)`
built by `cmp_any` for non-numeric operands, as a character list. -/
def quotedExp (a : List Char) (op : String) (b : List Char) : List Char :=
  dquote :: (a ++ dquote :: ' ' :: (op.data ++ ' ' :: dquote :: (b ++ [dquote])))

/-- `cmp_any` (`jsonpath.go`, lines 844-873): after the operator check,
format the two operands' scalar texts into a Go expression — unquoted
when both operands are numeric (`isNumber`), double-quoted otherwise —
and evaluate it with `types.Eval`.  Reading `.s` of a nil operand is a Go
nil-dereference panic. -/
def cmp_any (obj1 obj2 : Option Value) (op : String) : RunResult Bool :=
  if op ∈ cmpOps then
    match obj1 with
    | none => .panic "nil pointer dereference"
    | some v1 =>
      if isNumberV v1 then
        match obj2 with
        | none => .panic "nil pointer dereference"
        | some v2 =>
          let exp :=
            if isNumberV v2 then numExp v1.sfield.data op v2.sfield.data
            else quotedExp v1.sfield.data op v2.sfield.data
          match goEvalCmp exp with
          | .ok b => .ok b
          | .error e => .err e
      else
        match obj2 with
        | none => .panic "nil pointer dereference"
        | some v2 =>
          match goEvalCmp (quotedExp v1.sfield.data op v2.sfield.data) with
          | .ok b => .ok b
          | .error e => .err e
  else .err "op should only be <, <=, ==, >= and >"

/-- `eval_filter` (`jsonpath.go`, lines 807-827).  Faithful detail: the
error of the left operand's resolution is never checked — `exists` only
tests nil-ness, and the comparison path passes a nil pointer into
`cmp_any` (where it panics); likewise for the right operand. -/
def eval_filter (obj root : Option Value) (lp op rp : String) : RunResult Bool :=
  match get_lp_v obj root lp with
  | .panic p => .panic p
  | lpr =>
    if op = "exists" then
      .ok (match lpr with | .ok (some _) => true | _ => false)
    else if op = "=~" then .err "not implemented yet"
    else
      let lpv : Option Value := match lpr with | .ok v => v | _ => none
      let rpr : RunResult (Option Value) :=
        if strStartsWith rp "@." then filter_get_from_explicit_path obj rp
        else if strStartsWith rp "$." then filter_get_from_explicit_path root rp
        else .ok (some (.str rp))
      match rpr with
      | .panic p => .panic p
      | _ =>
        let rpv : Option Value := match rpr with | .ok v => v | _ => none
        cmp_any lpv rpv op

/-- The per-element filter loop of `get_filtered`: evaluate the predicate
on each element, keep the matches, abort on the first failure. -/
def filterList (f : Option Value → RunResult Bool) : List (Option Value) → RunResult (List (Option Value))
  | [] => .ok []
  | x :: rest =>
    match f x with
    | .panic p => .panic p
    | .err e => .err e
    | .ok b =>
      match filterList f rest with
      | .panic p => .panic p
      | .err e => .err e
      | .ok l => .ok (if b then x :: l else l)

/-- `get_filtered` (`jsonpath.go`, lines 604-674): parse the predicate,
then dispatch on the value's type — an array filters its elements
(result flag `true`), an object tests itself as the single candidate
(result flag `false`), any other type is an error. -/
def get_filtered (obj root : Option Value) (filter : String) : RunResult (Bool × List (Option Value)) :=
  match parse_filter filter with
  | .error e => .err e
  | .ok (lp, op, rp) =>
    match obj with
    | none => .panic "nil pointer dereference"
    | some (.arr elems) =>
      if op = "=~" then
        match regFilterCompile rp with
        | .error e => .err e
        | .ok pat =>
          match filterList (fun tmp => eval_reg_filter tmp root lp pat) elems with
          | .panic p => .panic p
          | .err e => .err e
          | .ok l => .ok (true, l)
      else
        match filterList (fun tmp => eval_filter tmp root lp op rp) elems with
        | .panic p => .panic p
        | .err e => .err e
        | .ok l => .ok (true, l)
    | some (.object flds) =>
      if op = "=~" then
        match regFilterCompile rp with
        | .error e => .err e
        | .ok pat =>
          match eval_reg_filter (some (.object flds)) root lp pat with
          | .panic p => .panic p
          | .err e => .err e
          | .ok b => .ok (false, if b then [some (.object flds)] else [])
      else
        match eval_filter (some (.object flds)) root lp op rp with
        | .panic p => .panic p
        | .err e => .err e
        | .ok b => .ok (false, if b then [some (.object flds)] else [])
    | some _ => .err "dont support filter on this type"

/-- The multi-key loop of `Lookup`'s key case (`jsonpath.go`,
lines 143-152): resolve each listed key against the same value. -/
def keysLoop (obj : Option Value) : List String → Except String (List (Option Value))
  | [] => Except.ok []
  | x :: rest =>
    match get_key obj x with
    | .error e => Except.error e
    | .ok tmp =>
      match keysLoop obj rest with
      | .error e => Except.error e
      | .ok l => Except.ok (tmp :: l)

/-- The multi-index loop of `Lookup`'s index case (`jsonpath.go`,
lines 170-180). -/
def idxsLoop (obj : Option Value) : List Int → RunResult (List (Option Value))
  | [] => .ok []
  | x :: rest =>
    match get_idx obj x with
    | .panic p => .panic p
    | .err e => .err e
    | .ok tmp =>
      match idxsLoop obj rest with
      | .panic p => .panic p
      | .err e => .err e
      | .ok l => .ok (tmp :: l)

/-- The step loop of `Compiled.Lookup` (`jsonpath.go`, lines 122-232).
Each step kind first resolves the step's `key` (the filter case does so
even for an empty key), then applies its arguments.  Type assertions on
the untyped `args` panic when the payload has the wrong shape; a
single-candidate filter with no match returns early with a nil value and
nil error; any unknown op — including the `scan` op that `parse_token`
produces for `*` — falls to the default error. -/
def lookupSteps (root : Option Value) : Option Value → List Step → RunResult (Option Value)
  | obj, [] => .ok obj
  | obj, s :: rest =>
    if s.op = "key" then
      match (if s.key.length > 0 then get_key obj s.key else Except.ok obj) with
      | .error e => .err e
      | .ok obj1 =>
        match s.args with
        | .nil => lookupSteps root obj1 rest
        | .keys ks =>
          if ks.length > 1 then
            match keysLoop obj1 ks with
            | .error e => .err e
            | .ok l => lookupSteps root (some (.arr l)) rest
          else if ks.length = 1 then
            match get_key obj1 (ks.getD 0 "") with
            | .error e => .err e
            | .ok obj2 => lookupSteps root obj2 rest
          else .err "cannot index on empty key slice"
        | _ => .panic "interface conversion"
    else if s.op = "idx" then
      match (if s.key.length > 0 then get_key obj s.key else Except.ok obj) with
      | .error e => .err e
      | .ok obj1 =>
        match s.args with
        | .idxs is =>
          if is.length > 1 then
            match idxsLoop obj1 is with
            | .panic p => .panic p
            | .err e => .err e
            | .ok l => lookupSteps root (some (.arr l)) rest
          else if is.length = 1 then
            match get_idx obj1 (is.getD 0 0) with
            | .panic p => .panic p
            | .err e => .err e
            | .ok obj2 => lookupSteps root obj2 rest
          else .err "cannot index on empty index slice"
        | _ => .panic "interface conversion"
    else if s.op = "range" then
      match (if s.key.length > 0 then get_key obj s.key else Except.ok obj) with
      | .error e => .err e
      | .ok obj1 =>
        match s.args with
        | .rng f t =>
          match get_range obj1 f t with
          | .panic p => .panic p
          | .err e => .err e
          | .ok obj2 => lookupSteps root obj2 rest
        | _ => .err "range args length should be 2"
    else if s.op = "filter" then
      match get_key obj s.key with
      | .error e => .err e
      | .ok obj1 =>
        match s.args with
        | .filter f =>
          match get_filtered obj1 root f with
          | .panic p => .panic p
          | .err e => .err e
          | .ok (isArr, ret) =>
            if isArr then lookupSteps root (some (.arr ret)) rest
            else if ret.length = 0 then .ok none
            else lookupSteps root (ret.getD 0 none) rest
        | _ => .panic "interface conversion"
    else .err "expression dont support in filter"

/-- `Compiled.Lookup` (`jsonpath.go`, lines 122-232). -/
def Compiled.Lookup (c : Compiled) (root : Option Value) : RunResult (Option Value) :=
  lookupSteps root root c.steps

/-- `JsonPathLookup` (`jsonpath.go`, lines 50-56): compile, then look up. -/
def JsonPathLookup (obj : Option Value) (jpath : String) : RunResult (Option Value) :=
  match Compile jpath with
  | .panic p => .panic p
  | .err e => .err e
  | .ok c => c.Lookup obj

/-! ## Claims -/

/-- The path `$['a#b']` (built without literal quote characters). -/
def pathKeyHash : String :=
  "$[" ++ String.singleton squote ++ "a#b" ++ String.singleton squote ++ "]"

/-- Helper for C5: the invalid-character test on line 398 of
`jsonpath.go` can never fire, because its third conjunct
`v < 'A' && v > 'Z'` is unsatisfiable. -/
theorem bracketInvalidChar_false (c : Char) : bracketInvalidChar c = false := by
  have hA : 'A'.toNat = 65 := rfl
  have hZ : 'Z'.toNat = 90 := rfl
  simp only [bracketInvalidChar, decide_eq_false_iff_not]
  intro h
  obtain ⟨-, -, ⟨h1, h2⟩, -⟩ := h
  omega

/-- C1: the claim reads "Compile and Lookup ... never abort the process:
Compile applied to any string (including the empty string) returns a
CompileError value rather than crashing, and Lookup applied to any
successfully compiled path (including one compiled from a bracket
containing `?` without the `?( )` wrapper) returns a LookupError value
rather than crashing."  The code violates both halves: `Compile("")`
panics on `tokens[0]` (the tokenizer returns an empty token list), and a
compiled `$[a?b]` step carries a nil `args` interface, so `Lookup`
panics on the `s.args.(string)` type assertion. -/
theorem C1_compile_and_lookup_can_panic :
    Compile "" = RunResult.panic "index out of range"
  ∧ JsonPathLookup (some (Value.object [])) "$[a?b]" =
      RunResult.panic "interface conversion" := by
  exact ⟨rfl, rfl⟩

/-- C2 counterexample: the claim reads "For every compiled path
containing a wildcard-scan step (e.g. `$..author`), Lookup evaluates the
scan step by broadcasting the next step over every direct child (rather
than failing)".  In fact `Lookup`'s switch has no `scan` case, so the
compiled `$..author` fails with the default-branch error even when the
key exists directly below the root. -/
theorem C2_scan_step_fails :
    JsonPathLookup (some (Value.object [("author", Value.str "x")])) "$..author" =
      RunResult.err "expression dont support in filter" := by
  exact rfl

/-- C2 amended: the tokenizer does coalesce `..`/adjacent `*` tokens into
a single `*` token and `parse_token` classifies `*` as a scan step, but
`Lookup` does not implement the scan step at all: any step whose op is
`scan` falls to the default branch and fails. -/
theorem C2_scan_unsupported_and_coalesced :
    (∀ (root obj : Option Value) (k : String) (a : Args) (rest : List Step),
      lookupSteps root obj (⟨"scan", k, a⟩ :: rest) =
        RunResult.err "expression dont support in filter")
  ∧ tokenize "$..author" = Except.ok ["$", "*", "author"]
  ∧ tokenize "$....author" = Except.ok ["$", "*", "author"]
  ∧ parse_token "*" = Except.ok ("scan", "*", Args.nil) := by
  refine ⟨fun root obj k a rest => rfl, rfl, rfl, rfl⟩

/-- C5: the claim reads "any character outside {letters, digits, comma,
`@`, `$`, `.`, quotes, comparison and logic operator characters} causes
compilation to fail with a format error (e.g. `['a#b']` is rejected at
compile time)".  The code's own comment (line 397) states that intent,
but the condition on line 398 writes `(v < 'A' && v > 'Z')` — `&&` where
`||` was meant — which is unsatisfiable, so the whole conjunction is
always false, the error is unreachable, and `$['a#b']` compiles as a
key-list step for the field name `a#b`. -/
theorem C5_invalid_char_check_unreachable :
    (∀ c : Char, bracketInvalidChar c = false)
  ∧ parse_bracket_token (String.singleton squote ++ "a#b" ++ String.singleton squote) =
      Except.ok ("key", Args.keys ["a#b"])
  ∧ (Compile pathKeyHash).isOk = true := by
  exact ⟨bracketInvalidChar_false, rfl, rfl⟩

/-- C6: the claim reads "if the interior is not wrapped as `?( ... )`,
Compile returns a format error (the compile call fails rather than
producing a step)".  In fact `parse_token` classifies the token as a
filter but raises no error in the unwrapped case, leaving `args` the nil
interface: `Compile("$[?]")` succeeds, and the later `Lookup` panics on
the `s.args.(string)` type assertion — contradicting both the spec's
stated format error and the documented errors-as-values policy. -/
theorem C6_unwrapped_filter_compiles_then_panics :
    parse_token "[?]" = Except.ok ("filter", "", Args.nil)
  ∧ (Compile "$[?]").isOk = true
  ∧ JsonPathLookup (some (Value.object [])) "$[?]" =
      RunResult.panic "interface conversion" := by
  exact ⟨rfl, rfl, rfl⟩

/-- A string of length zero is the empty string. -/
theorem strLength_zero {k : String} (h : k.length = 0) : k = "" := by
  cases k with
  | mk d =>
    simp only [String.length, List.length_eq_zero] at h
    subst h
    rfl

/-- C3 counterexample: the claim reads "For every step evaluated against
a null current value ... Lookup returns a LookupError; it never silently
returns null for the whole query."  A degenerate key step with empty key
and no key-list — compiled from a trailing dot — is a no-op, so `$.a.`
against `{"a": null}` silently returns the null with no error. -/
theorem C3_trailing_dot_passes_null :
    JsonPathLookup (some (Value.object [("a", Value.null)])) "$.a." =
      RunResult.ok (some Value.null) := by
  exact rfl

/-- C3 amended: every step that actually dereferences a null current
value fails with a LookupError — a key step with a non-empty key, an
index, range or filter step (and hence the example query
`$.head_commit.author.username` against `{"head_commit": null}`); only
the degenerate empty-key key step passes the null through. -/
theorem C3_null_dereference_fails :
    (∀ k : String, k ≠ "" →
      get_key (some Value.null) k = Except.error "fail to exec get_key, object is not map")
  ∧ (∀ i : Int,
      get_idx (some Value.null) i = RunResult.err "fail to exec get_idx, object is not Slice")
  ∧ (∀ f t : Option Int,
      get_range (some Value.null) f t = RunResult.err "fail to exec get_range, object is not Slice")
  ∧ (∀ (root : Option Value) (f : String),
      (get_filtered (some Value.null) root f).isErr = true)
  ∧ JsonPathLookup (some (Value.object [("head_commit", Value.null)]))
      "$.head_commit.author.username" =
      RunResult.err "fail to exec get_key, object is not map" := by
  refine ⟨?_, fun i => rfl, fun f t => rfl, ?_, rfl⟩
  · intro k hk
    have hl : ¬ k.length = 0 := fun h => hk (strLength_zero h)
    simp [get_key, hl]
  · intro root f
    unfold get_filtered
    match hp : parse_filter f with
    | .error e => rfl
    | .ok (lp, op, rp) => rfl

theorem C3_null_dereference_fails_witness :
    get_key (some Value.null) "author" = Except.error "fail to exec get_key, object is not map"
  ∧ get_idx (some Value.null) 0 = RunResult.err "fail to exec get_idx, object is not Slice" :=
  ⟨C3_null_dereference_fails.1 "author" (by decide), C3_null_dereference_fails.2.1 0⟩

/-- C4 counterexample: the claim reads "For every array, including the
empty array, a slice step with both bounds unspecified ... succeeds and
yields the whole array; no range validation failure occurs when the
array is empty and the bounds are default."  On the empty array the
defaulted bounds give `_frm = 0` and the validation `_frm >= length`
fires (`0 >= 0`), so `get_range` fails with a range error. -/
theorem C4_empty_array_default_slice_fails :
    get_range (some (Value.arr [])) none none = RunResult.err "index [from] out of range" := by
  exact rfl

/-- C4 amended: a slice step with both bounds unspecified (compiled from
`[:]` or `[*]` as `range(nil, nil)`) succeeds and yields the whole array
for every NON-empty array; on the empty array it fails with the
`[from]` range error. -/
theorem C4_default_slice_whole_array (xs : List (Option Value)) (h : xs ≠ []) :
    get_range (some (Value.arr xs)) none none = RunResult.ok (some (Value.arr xs))
  ∧ parse_token "[*]" = Except.ok ("range", "", Args.rng none none)
  ∧ parse_token "[:]" = Except.ok ("range", "", Args.rng none none)
  ∧ get_range (some (Value.arr [])) none none = RunResult.err "index [from] out of range" := by
  refine ⟨?_, rfl, rfl, rfl⟩
  have hL : 0 < xs.length := List.length_pos.mpr h
  have hL1 : (1 : Int) ≤ (xs.length : Int) := by exact_mod_cast hL
  simp only [get_range, Option.getD]
  split_ifs with h1 h2 h3 h4 <;> try omega
  · congr 1
    congr 1
    congr 1
    have e1 : ((0 : Int)).toNat = 0 := rfl
    have e2 : (((xs.length : Int) - 1 + 1) - 0).toNat = xs.length := by omega
    rw [e2]
    simp

theorem C4_default_slice_whole_array_witness :
    get_range (some (Value.arr [some Value.null, some (Value.str "x")])) none none =
      RunResult.ok (some (Value.arr [some Value.null, some (Value.str "x")])) :=
  (C4_default_slice_whole_array [some Value.null, some (Value.str "x")]
    (List.cons_ne_nil _ _)).1

/-- C7: negative indexing — for an array of length `L`, index `-1`
yields the same result as `L-1` and `-L` the same as `0` (including the
degenerate `L = 0` case, where both sides fail alike); `-(L+1)` and any
index `≥ L` fail with a range error. -/
theorem C7_negative_index (xs : List (Option Value)) :
    get_idx (some (Value.arr xs)) (-1) = get_idx (some (Value.arr xs)) ((xs.length : Int) - 1)
  ∧ get_idx (some (Value.arr xs)) (-(xs.length : Int)) = get_idx (some (Value.arr xs)) 0
  ∧ (get_idx (some (Value.arr xs)) (-((xs.length : Int) + 1))).isErr = true
  ∧ ∀ i : Int, (xs.length : Int) ≤ i → (get_idx (some (Value.arr xs)) i).isErr = true := by
  refine ⟨?_, ?_, ?_, ?_⟩
  · simp only [get_idx]
    split_ifs <;> first | omega | rfl
  · simp only [get_idx]
    split_ifs <;> first | omega | rfl | (congr 2; omega)
  · simp only [get_idx]
    split_ifs <;> first | omega | rfl
  · intro i hi
    simp only [get_idx]
    split_ifs <;> first | omega | rfl

theorem C7_negative_index_witness :
    (get_idx (some (Value.arr [some (Value.num "1"), some (Value.num "2")])) 5).isErr = true :=
  (C7_negative_index [some (Value.num "1"), some (Value.num "2")]).2.2.2 5 (by decide)

/-- C8: broadcasting a key over an array never fails for absence: the
result is a new array of the same length whose `i`-th slot is nil
exactly when the `i`-th element (an object) lacks the key. -/
theorem C8_broadcast_key (elems : List (Option Value)) (k : String) (hk : k ≠ "") :
    get_key (some (Value.arr elems)) k =
      Except.ok (some (Value.arr (elems.map (fun e => getP e k))))
  ∧ (elems.map (fun e => getP e k)).length = elems.length
  ∧ ∀ (i : Nat) (flds : List (String × Value)),
      elems.getD i none = some (Value.object flds) →
      ((elems.map (fun e => getP e k)).getD i none = none ↔ findField flds k = none) := by
  have hl : ¬ k.length = 0 := fun h => hk (strLength_zero h)
  refine ⟨by simp [get_key, hl], by simp, ?_⟩
  intro i flds hi
  rw [List.getD_eq_getElem?_getD] at hi ⊢
  rw [List.getElem?_map]
  match he : elems[i]? with
  | none => rw [he] at hi; simp at hi
  | some v =>
    rw [he] at hi
    simp at hi
    subst hi
    simp [getP]

theorem C8_broadcast_key_witness :
    get_key (some (Value.arr [some (Value.object [("isbn", Value.str "x")]), some (Value.object [])])) "isbn" =
      Except.ok (some (Value.arr [some (Value.str "x"), none]))
  ∧ ((([some (Value.object [("isbn", Value.str "x")]), some (Value.object [])] : List (Option Value)).map
        (fun e => getP e "isbn")).getD 1 none = none ↔ findField [] "isbn" = none) :=
  ⟨(C8_broadcast_key [some (Value.object [("isbn", Value.str "x")]), some (Value.object [])]
      "isbn" (by decide)).1,
   (C8_broadcast_key [some (Value.object [("isbn", Value.str "x")]), some (Value.object [])]
      "isbn" (by decide)).2.2 1 [] rfl⟩

/-- C9 counterexample: the claim reads "For every filter step whose
key-resolved value is not an array, the filter evaluates the value
itself as the single candidate ... — for any non-array value type, not
only objects."  In fact `get_filtered`'s type switch handles only arrays
and objects: a number candidate (likewise string/boolean/null) makes
Lookup fail with an error instead of evaluating the predicate. -/
theorem C9_filter_on_scalar_errors :
    JsonPathLookup (some (Value.num "5")) "$[?(@.a == 1)]" =
      RunResult.err "dont support filter on this type" := by
  exact rfl

/-- C9 amended: for a filter step whose key-resolved value is an OBJECT
(the only supported non-array type), the object itself is the single
candidate: if the predicate holds the step's result is that value, and
if not `Lookup` returns the no-result sentinel (nil value, nil error);
every other non-array type fails with an error. -/
theorem C9_filter_single_candidate_object
    (flds : List (String × Value)) (root : Option Value) (f lp op rp : String) (b : Bool)
    (hp : parse_filter f = Except.ok (lp, op, rp)) (hop : op ≠ "=~")
    (he : eval_filter (some (Value.object flds)) root lp op rp = RunResult.ok b) :
    get_filtered (some (Value.object flds)) root f =
      RunResult.ok (false, if b then [some (Value.object flds)] else [])
  ∧ (b = false →
      lookupSteps root (some (Value.object flds)) [⟨"filter", "", Args.filter f⟩] =
        RunResult.ok none)
  ∧ ∀ (v : Value) (rt : Option Value) (g : String),
      Value.isArrV v = false → Value.isObjV v = false →
      (get_filtered (some v) rt g).isErr = true := by
  have h1 : get_filtered (some (Value.object flds)) root f =
      RunResult.ok (false, if b then [some (Value.object flds)] else []) := by
    unfold get_filtered
    rw [hp]
    simp [hop, he]
  refine ⟨h1, ?_, ?_⟩
  · intro hb
    subst hb
    simp [lookupSteps, get_key, h1]
  · intro v rt g hv1 hv2
    unfold get_filtered
    cases hg : parse_filter g with
    | error e => rfl
    | ok t =>
      obtain ⟨l2, o2, r2⟩ := t
      cases v with
      | arr es => simp [Value.isArrV] at hv1
      | object fs => simp [Value.isObjV] at hv2
      | str s => rfl
      | num s => rfl
      | boolTrue => rfl
      | boolFalse => rfl
      | null => rfl

theorem C9_filter_single_candidate_object_witness :
    get_filtered (some (Value.object [("a", Value.num "1")])) none "@.a == 2" =
      RunResult.ok (false, [])
  ∧ lookupSteps none (some (Value.object [("a", Value.num "1")]))
      [⟨"filter", "", Args.filter "@.a == 2"⟩] = RunResult.ok none := by
  have h := C9_filter_single_candidate_object [("a", Value.num "1")] none
    "@.a == 2" "@.a" "==" "2" false rfl (by decide) rfl
  exact ⟨h.1, h.2.1 rfl⟩

/-- Specification-side comparator for C10: lexicographic (byte-wise)
string comparison under one of the six comparison operators. -/
def goStringCompare (op : String) (a b : List Char) : Bool :=
  if op = "<" then listLt a b
  else if op = "<=" then ¬ listLt b a
  else if op = "==" then a = b
  else if op = "!=" then a ≠ b
  else if op = ">=" then ¬ listLt a b
  else listLt b a

/-- Specification-side comparator for C10: exact comparison of two
decimal constants `m * 10^e` under one of the six comparison operators. -/
def goNumCompare (op : String) (a b : Int × Int) : Bool :=
  let sc := decScale a b
  if op = "<" then sc.1 < sc.2
  else if op = "<=" then sc.1 ≤ sc.2
  else if op = "==" then sc.1 = sc.2
  else if op = "!=" then sc.1 ≠ sc.2
  else if op = ">=" then sc.2 ≤ sc.1
  else sc.2 < sc.1

/-- A string whose text stays inside the faithfully modelled fragment
of Go interpreted string literals: no quote, no backslash (escape
sequences), no raw newline, no NUL, no byte-order mark. -/
def plainText (s : String) : Prop :=
  dquote ∉ s.data ∧ bslash ∉ s.data ∧ Char.ofNat 10 ∉ s.data ∧
    Char.ofNat 0 ∉ s.data ∧ Char.ofNat 65279 ∉ s.data

/-- The shape every spacing-free numeric operand has: non-empty, no
space, does not begin with a quote. -/
def numShape (s : String) : Prop :=
  s.data ≠ [] ∧ ' ' ∉ s.data ∧ s.data.head? ≠ some dquote

theorem strCmpOp_ok (op : String) (hop : op ∈ cmpOps) (a b : List Char) :
    strCmpOp op a b = Except.ok (goStringCompare op a b) := by
  simp only [cmpOps, List.mem_cons, List.not_mem_nil, or_false] at hop
  rcases hop with rfl | rfl | rfl | rfl | rfl | rfl <;> rfl

theorem numCmpOp_ok (op : String) (hop : op ∈ cmpOps) (a b : Int × Int) :
    numCmpOp op a b = Except.ok (goNumCompare op a b) := by
  simp only [cmpOps, List.mem_cons, List.not_mem_nil, or_false] at hop
  rcases hop with rfl | rfl | rfl | rfl | rfl | rfl <;> rfl

theorem opShape (op : String) (hop : op ∈ cmpOps) :
    ' ' ∉ op.data ∧ op.data ≠ [] := by
  simp only [cmpOps, List.mem_cons, List.not_mem_nil, or_false] at hop
  rcases hop with rfl | rfl | rfl | rfl | rfl | rfl <;> exact ⟨by decide, by decide⟩

theorem scanStrLit_append (s rest : List Char) (h : dquote ∉ s)
    (h10 : Char.ofNat 10 ∉ s) (h0 : Char.ofNat 0 ∉ s) (hbom : Char.ofNat 65279 ∉ s) :
    scanStrLit (s ++ dquote :: rest) = some (s, rest) := by
  induction s with
  | nil => simp [scanStrLit]
  | cons c cs ih =>
    have hc : c ≠ dquote := fun e => h (e ▸ List.mem_cons_self c cs)
    have hc10 : ¬ c = Char.ofNat 10 := fun e => h10 (e ▸ List.mem_cons_self c cs)
    have hc0 : ¬ c = Char.ofNat 0 := fun e => h0 (e ▸ List.mem_cons_self c cs)
    have hcb : ¬ c = Char.ofNat 65279 := fun e => hbom (e ▸ List.mem_cons_self c cs)
    have h2 : dquote ∉ cs := fun m => h (List.mem_cons_of_mem c m)
    have h102 : Char.ofNat 10 ∉ cs := fun m => h10 (List.mem_cons_of_mem c m)
    have h02 : Char.ofNat 0 ∉ cs := fun m => h0 (List.mem_cons_of_mem c m)
    have hb2 : Char.ofNat 65279 ∉ cs := fun m => hbom (List.mem_cons_of_mem c m)
    simp [scanStrLit, hc, hc10, hc0, hcb, ih h2 h102 h02 hb2]

theorem spanNonSpace_append (l rest : List Char) (h : ' ' ∉ l) :
    spanNonSpace (l ++ ' ' :: rest) = (l, ' ' :: rest) := by
  induction l with
  | nil => simp [spanNonSpace]
  | cons c cs ih =>
    have hc : c ≠ ' ' := fun e => h (e ▸ List.mem_cons_self c cs)
    have h2 : ' ' ∉ cs := fun m => h (List.mem_cons_of_mem c m)
    simp [spanNonSpace, hc, ih h2]

theorem spanNonSpace_noSpace (l : List Char) (h : ' ' ∉ l) :
    spanNonSpace l = (l, []) := by
  induction l with
  | nil => rfl
  | cons c cs ih =>
    have hc : c ≠ ' ' := fun e => h (e ▸ List.mem_cons_self c cs)
    have h2 : ' ' ∉ cs := fun m => h (List.mem_cons_of_mem c m)
    simp [spanNonSpace, hc, ih h2]

theorem scanOperand_strLit (s rest : List Char) (h : dquote ∉ s)
    (h10 : Char.ofNat 10 ∉ s) (h0 : Char.ofNat 0 ∉ s) (hbom : Char.ofNat 65279 ∉ s) :
    scanOperand (dquote :: (s ++ dquote :: rest)) = some (GoOperand.strLit s, rest) := by
  simp [scanOperand, scanStrLit_append s rest h h10 h0 hbom]

theorem scanOperand_numLit (l rest : List Char) (h : ' ' ∉ l) (hne : l ≠ [])
    (hq : l.head? ≠ some dquote) :
    scanOperand (l ++ ' ' :: rest) = some (GoOperand.numLit l, ' ' :: rest) := by
  match l, hne with
  | c :: cs, _ =>
    have hc : c ≠ dquote := by simpa using hq
    have hsp := spanNonSpace_append (c :: cs) rest h
    rw [List.cons_append] at hsp
    simp [scanOperand, hc, hsp]

theorem scanOperand_numLit_end (l : List Char) (h : ' ' ∉ l) (hne : l ≠ [])
    (hq : l.head? ≠ some dquote) :
    scanOperand l = some (GoOperand.numLit l, []) := by
  match l, hne with
  | c :: cs, _ =>
    have hc : c ≠ dquote := by simpa using hq
    have hsp := spanNonSpace_noSpace (c :: cs) h
    simp [scanOperand, hc, hsp]

theorem goEvalCmp_quoted (a b : List Char) (op : String) (hop : op ∈ cmpOps)
    (ha : dquote ∉ a) (ha10 : Char.ofNat 10 ∉ a) (ha0 : Char.ofNat 0 ∉ a)
    (hab : Char.ofNat 65279 ∉ a)
    (hb : dquote ∉ b) (hb10 : Char.ofNat 10 ∉ b) (hb0 : Char.ofNat 0 ∉ b)
    (hbb : Char.ofNat 65279 ∉ b) :
    goEvalCmp (quotedExp a op b) = Except.ok (goStringCompare op a b) := by
  obtain ⟨hsp, hne⟩ := opShape op hop
  have heta : (⟨op.data⟩ : String) = op := rfl
  unfold quotedExp goEvalCmp
  rw [scanOperand_strLit a _ ha ha10 ha0 hab]
  simp only []
  rw [spanNonSpace_append op.data _ hsp]
  simp only []
  rw [scanOperand_strLit b _ hb hb10 hb0 hbb]
  simp only [evalCmpOperands, heta]
  exact strCmpOp_ok op hop a b

theorem goEvalCmp_num (a b : List Char) (op : String) (hop : op ∈ cmpOps)
    (ha1 : ' ' ∉ a) (ha2 : a ≠ []) (ha3 : a.head? ≠ some dquote)
    (hb1 : ' ' ∉ b) (hb2 : b ≠ []) (hb3 : b.head? ≠ some dquote)
    (q1 q2 : Int × Int) (hga : goLit ⟨a⟩ = some q1) (hgb : goLit ⟨b⟩ = some q2) :
    goEvalCmp (numExp a op b) = Except.ok (goNumCompare op q1 q2) := by
  obtain ⟨hsp, hne⟩ := opShape op hop
  have heta : (⟨op.data⟩ : String) = op := rfl
  unfold numExp goEvalCmp
  rw [scanOperand_numLit a _ ha1 ha2 ha3]
  simp only []
  rw [spanNonSpace_append op.data _ hsp]
  simp only []
  rw [scanOperand_numLit_end b hb1 hb2 hb3]
  simp only [evalCmpOperands, heta, hga, hgb]
  exact numCmpOp_ok op hop q1 q2

/-- C10 counterexample, refuting both halves of the claim at concrete
inputs.  String half: the claim says comparing any two strings,
including ones containing quote characters, succeeds lexicographically;
but a quote character inside an operand breaks the generated expression
(`"a"b" == "c"`), so `types.Eval` fails and `cmp_any` returns an error.
Numeric half: the claim says numeric comparison has IEEE-754 double
semantics; the code compares the exact constants instead, so
`100000000000000000001 == 100000000000000000002` yields `false`, while
as doubles the two operands are equal: `10^20` is exactly the double
`6103515625000000 * 2^14` (its significand is below `2^53`), the next
double up is `10^20 + 2^14`, and both operands lie below the
round-to-nearest midpoint `10^20 + 2^13`, so both round to `10^20`.
The integer facts certifying that rounding are the last conjuncts. -/
theorem C10_comparison_claim_fails :
    cmp_any (some (Value.str ("a" ++ String.singleton dquote ++ "b")))
        (some (Value.str "c")) "==" =
      RunResult.err "types.Eval: parse error"
  ∧ cmp_any (some (Value.num "100000000000000000001"))
        (some (Value.num "100000000000000000002")) "==" = RunResult.ok false
  ∧ (10 ^ 20 : Int) = 6103515625000000 * 2 ^ 14
  ∧ (100000000000000000001 : Int) < 10 ^ 20 + 2 ^ 13
  ∧ (100000000000000000002 : Int) < 10 ^ 20 + 2 ^ 13
  ∧ (6103515625000000 : Int) < 2 ^ 53 := by
  exact ⟨rfl, rfl, by norm_num, by norm_num, by norm_num, by norm_num⟩

/-- C10 amended: for the six comparison operators, when both operands
are numeric (`isNumber`) and their texts are numeric literals of the
modelled fragment, the comparison is the EXACT arbitrary-precision
comparison of the literal values (go/constant semantics — not IEEE-754
double rounding); otherwise, when the operand texts stay inside the
faithfully modelled string-literal fragment (no quote, no backslash),
the comparison is lexicographic byte-wise string comparison.  Operand
texts containing a quote character instead make the evaluation fail
(see the counterexample). -/
theorem C10_comparison_model (v1 v2 : Value) (op : String) (hop : op ∈ cmpOps) :
    (∀ q1 q2 : Int × Int,
        isNumberV v1 = true → isNumberV v2 = true →
        goLit (Value.sfield v1) = some q1 → goLit (Value.sfield v2) = some q2 →
        numShape (Value.sfield v1) → numShape (Value.sfield v2) →
        cmp_any (some v1) (some v2) op = RunResult.ok (goNumCompare op q1 q2))
  ∧ ((isNumberV v1 && isNumberV v2) = false →
        plainText (Value.sfield v1) → plainText (Value.sfield v2) →
        cmp_any (some v1) (some v2) op =
          RunResult.ok (goStringCompare op (Value.sfield v1).data (Value.sfield v2).data)) := by
  constructor
  · intro q1 q2 hn1 hn2 hg1 hg2 hs1 hs2
    unfold cmp_any
    rw [if_pos hop]
    simp only [hn1, hn2, if_pos]
    rw [goEvalCmp_num (Value.sfield v1).data (Value.sfield v2).data op hop
      hs1.2.1 hs1.1 hs1.2.2 hs2.2.1 hs2.1 hs2.2.2 q1 q2 hg1 hg2]
  · intro hnum h1 h2
    unfold cmp_any
    rw [if_pos hop]
    obtain ⟨hq1, -, h101, h01, hb1⟩ := h1
    obtain ⟨hq2, -, h102, h02, hb2⟩ := h2
    cases hn1 : isNumberV v1 with
    | false =>
      simp only [hn1, Bool.false_eq_true, if_neg, reduceIte]
      rw [goEvalCmp_quoted (Value.sfield v1).data (Value.sfield v2).data op hop
        hq1 h101 h01 hb1 hq2 h102 h02 hb2]
    | true =>
      have hn2 : isNumberV v2 = false := by
        cases hv2 : isNumberV v2
        · rfl
        · rw [hn1, hv2] at hnum
          simp at hnum
      simp only [hn1, hn2, Bool.false_eq_true, reduceIte]
      rw [goEvalCmp_quoted (Value.sfield v1).data (Value.sfield v2).data op hop
        hq1 h101 h01 hb1 hq2 h102 h02 hb2]

theorem C10_comparison_model_witness :
    cmp_any (some (Value.num "1.5")) (some (Value.num "2")) "<" = RunResult.ok true
  ∧ cmp_any (some (Value.str "abc")) (some (Value.str "abd")) "<" = RunResult.ok true := by
  constructor
  · exact (C10_comparison_model (Value.num "1.5") (Value.num "2") "<" (by decide)).1
      (15, -1) (2, 0) rfl rfl (by decide) (by decide)
      ⟨by decide, by decide, by decide⟩ ⟨by decide, by decide, by decide⟩
  · exact (C10_comparison_model (Value.str "abc") (Value.str "abd") "<" (by decide)).2
      rfl ⟨by decide, by decide, by decide, by decide, by decide⟩
      ⟨by decide, by decide, by decide, by decide, by decide⟩
